import Mathlib

/-!
A verification development for the SPEI utility module (`src/spei/utils.py`).

We give a shallow embedding of the module's functions — `validate_series`,
`validate_index`, `group_yearly_df`, `get_data_series`, `dist_test` and
`dists_test` — and prove theorems about the behaviours claimed in the
specification.  External libraries (pandas, numpy, scipy) are embedded only
to the extent the module's code exercises them: their documented behaviour
on the inputs this code constructs.
-/

namespace SPEI

/-- A calendar timestamp as carried by a pandas `DatetimeIndex` entry:
year, month, day, and the time of day (`%H:%M:%S`) in seconds. -/
structure Timestamp where
  year : Nat
  month : Nat
  day : Nat
  tod : Nat
deriving DecidableEq

/-- The row key produced by `group_yearly_df`: the `%m-%d %H:%M:%S` part of a
timestamp, i.e. the timestamp re-keyed onto the synthetic reference year 2000. -/
structure MDKey where
  month : Nat
  day : Nat
  tod : Nat
deriving DecidableEq

/-- Strip a timestamp to its month/day/time-of-day key
(the `gry.index.strftime("%m-%d %H:%M:%S")` step). -/
def mdkey (t : Timestamp) : MDKey := ⟨t.month, t.day, t.tod⟩

/-- Substitute a real year into a month/day/time-of-day key
(the `to_datetime(f"{col}-" + ...)` step of `get_data_series`). -/
def mkTs (y : Nat) (k : MDKey) : Timestamp := ⟨y, k.month, k.day, k.tod⟩

/-- Chronological (lexicographic) strict order of `MDKey`s, which is the
order of the corresponding year-2000 datetimes. -/
def MDKey.lt (a b : MDKey) : Bool :=
  decide (a.month < b.month) ||
    (decide (a.month = b.month) &&
      (decide (a.day < b.day) || (decide (a.day = b.day) && decide (a.tod < b.tod))))

theorem MDKey.lt_iff {a b : MDKey} :
    MDKey.lt a b = true ↔
      a.month < b.month ∨ a.month = b.month ∧
        (a.day < b.day ∨ a.day = b.day ∧ a.tod < b.tod) := by
  simp [MDKey.lt]

theorem MDKey.lt_irrefl (a : MDKey) : MDKey.lt a a = false := by
  cases h : MDKey.lt a a
  · rfl
  · rw [MDKey.lt_iff] at h
    omega

theorem MDKey.lt_asymm {a b : MDKey} (h : MDKey.lt a b = true) :
    MDKey.lt b a = false := by
  cases hba : MDKey.lt b a
  · rfl
  · rw [MDKey.lt_iff] at h hba
    omega

theorem MDKey.lt_trans {a b c : MDKey} (hab : MDKey.lt a b = true)
    (hbc : MDKey.lt b c = true) : MDKey.lt a c = true := by
  rw [MDKey.lt_iff] at hab hbc ⊢
  omega

theorem MDKey.ne_of_lt {a b : MDKey} (h : MDKey.lt a b = true) : a ≠ b := by
  intro he
  subst he
  rw [MDKey.lt_irrefl] at h
  exact Bool.noConfusion h

/-- Insert a key into a (sorted, duplicate-free) key list, keeping it sorted
and dropping the key if it is already present.  This models how the union of
the per-year `DatetimeIndex`es is formed when `concat(grs, axis=1)` outer-joins
the per-year frames. -/
def insortKey (k : MDKey) : List MDKey → List MDKey
  | [] => [k]
  | x :: xs =>
    if k = x then x :: xs
    else if MDKey.lt k x then k :: x :: xs
    else x :: insortKey k xs

/-- The sorted, duplicate-free union of a list of keys: the row index that
`concat(..., axis=1)` gives the yearly table. -/
def sortedKeys (l : List MDKey) : List MDKey := l.foldr insortKey []

/-- A key list that is strictly sorted in chronological order. -/
def KeySorted (l : List MDKey) : Prop :=
  l.Pairwise (fun a b => MDKey.lt a b = true)

theorem insortKey_mem_eq {k : MDKey} : ∀ {l : List MDKey},
    KeySorted l → k ∈ l → insortKey k l = l := by
  intro l
  induction l with
  | nil => intro _ h; cases h
  | cons x xs ih =>
    intro hs hm
    rcases List.pairwise_cons.mp hs with ⟨hx, hxs⟩
    rcases List.mem_cons.mp hm with he | ht
    · simp [insortKey, he]
    · have hlt : MDKey.lt x k = true := hx k ht
      have hne : k ≠ x := fun he => (MDKey.ne_of_lt hlt) he.symm
      have hnlt : MDKey.lt k x = false := MDKey.lt_asymm hlt
      simp [insortKey, hne, hnlt, ih hxs ht]

theorem insortKey_lt_all {k : MDKey} : ∀ {l : List MDKey},
    (∀ y ∈ l, MDKey.lt k y = true) → insortKey k l = k :: l := by
  intro l
  cases l with
  | nil => intro _; rfl
  | cons x xs =>
    intro h
    have hlt : MDKey.lt k x = true := h x (List.mem_cons_self x xs)
    have hne : k ≠ x := MDKey.ne_of_lt hlt
    simp [insortKey, hne, hlt]

theorem sortedKeys_of_sorted : ∀ {l : List MDKey}, KeySorted l → sortedKeys l = l := by
  intro l
  induction l with
  | nil => intro _; rfl
  | cons x xs ih =>
    intro hs
    rcases List.pairwise_cons.mp hs with ⟨hx, hxs⟩
    have : sortedKeys (x :: xs) = insortKey x (sortedKeys xs) := rfl
    rw [this, ih hxs, insortKey_lt_all hx]

theorem foldr_insortKey_subset {K : List MDKey} (hK : KeySorted K) :
    ∀ {L : List MDKey}, (∀ k ∈ L, k ∈ K) → List.foldr insortKey K L = K := by
  intro L
  induction L with
  | nil => intro _; rfl
  | cons a L ih =>
    intro h
    have h1 : List.foldr insortKey K (a :: L) = insortKey a (List.foldr insortKey K L) := rfl
    rw [h1, ih (fun k hk => h k (List.mem_cons_of_mem a hk)),
      insortKey_mem_eq hK (h a (List.mem_cons_self a L))]

/-! ## Calendar facts used by the yearly regrouping -/

/-- `calendar.isleap` from the Python standard library. -/
def isleap (y : Nat) : Bool := y % 4 == 0 && (y % 100 != 0 || y % 400 == 0)

/-- The mask computed inside `get_data_series`: a constructed index entry is
dropped when its month-day part is `02-29` and the substituted year is not a
leap year.  (`feb29_invalid` is the condition for *dropping*; the code keeps
the negation `boolidx`.) -/
def feb29_invalid (y : Nat) (k : MDKey) : Bool :=
  (k.month == 2 && k.day == 29) && !(isleap y)

/-- Number of days of month `m` in a year without a February 29. -/
def monthDays (m : Nat) : Nat :=
  if m = 2 then 28 else if m = 4 ∨ m = 6 ∨ m = 9 ∨ m = 11 then 30 else 31

/-- The 365 month-day pairs of a calendar year without February 29,
in chronological order. -/
def days365 : List (Nat × Nat) :=
  ((List.range' 1 12).map
    (fun m => (List.range' 1 (monthDays m)).map (fun d => (m, d)))).flatten

/-- The 365 midnight day-of-year keys of a calendar year without February 29,
in chronological order. -/
def keys365 : List MDKey := days365.map (fun p => ⟨p.1, p.2, 0⟩)

/-- Boolean check that consecutive keys are strictly increasing. -/
def chainLtB : List MDKey → Bool
  | [] => true
  | [_] => true
  | a :: b :: rest => MDKey.lt a b && chainLtB (b :: rest)

theorem chainLtB_sorted : ∀ l : List MDKey, chainLtB l = true → KeySorted l
  | [], _ => List.Pairwise.nil
  | [a], _ => by
    unfold KeySorted
    exact List.pairwise_singleton _ a
  | a :: b :: rest, h => by
    have hsplit : MDKey.lt a b = true ∧ chainLtB (b :: rest) = true := by
      simpa [chainLtB, Bool.and_eq_true] using h
    have ih := chainLtB_sorted (b :: rest) hsplit.2
    refine List.pairwise_cons.mpr ⟨?_, ih⟩
    intro y hy
    rcases List.mem_cons.mp hy with rfl | hy2
    · exact hsplit.1
    · exact MDKey.lt_trans hsplit.1 ((List.pairwise_cons.mp ih).1 y hy2)

set_option maxRecDepth 8192 in
theorem keys365_sorted : KeySorted keys365 :=
  chainLtB_sorted keys365 (by decide)

set_option maxRecDepth 8192 in
theorem keys365_ne_nil : keys365 ≠ [] := by decide

set_option maxRecDepth 8192 in
theorem keys365_no_feb29 : ∀ k ∈ keys365, (k.month == 2 && k.day == 29) = false := by
  decide

/-! ## The yearly table and its two conversions

`group_yearly_df` groups a daily series by calendar year (`Grouper(freq="Y")`
produces one bin per year between the first and last observed year, empty
years included), re-keys each group's index onto the reference year 2000, and
outer-concatenates the groups column-wise.  `get_data_series` inverts this.

A series is a list of (timestamp, value) pairs; a missing cell of the table is
`none` (pandas `NaN`).  As in the specification's data model, timestamps are
assumed to be associated 1:1 with values, so cell lookup takes the first entry
of the matching year and day-of-year key. -/

/-- The yearly table built by `group_yearly_df`: a row index of day-of-year
keys, one column per year, and a cell function (missing cells are `none`). -/
structure YearlyDF where
  rows : List MDKey
  cols : List Nat
  cell : Nat → MDKey → Option ℚ

/-- `group_yearly_df` from `src/spei/utils.py`.  An empty input series
produces no per-year frames and `concat({}, axis=1)` raises
`ValueError("No objects to concatenate")`, modelled as `Except.error`. -/
def group_yearly_df (s : List (Timestamp × ℚ)) : Except String YearlyDF :=
  match s with
  | [] => Except.error "No objects to concatenate"
  | e :: rest =>
    let y0 := rest.foldl (fun a x => min a x.1.year) e.1.year
    let y1 := rest.foldl (fun a x => max a x.1.year) e.1.year
    Except.ok
      { rows := sortedKeys ((e :: rest).map (fun x => mdkey x.1))
        cols := List.range' y0 (y1 + 1 - y0)
        cell := fun y k =>
          ((e :: rest).find? (fun x => x.1.year == y && mdkey x.1 == k)).map
            (fun x => x.2) }

/-- `get_data_series` from `src/spei/utils.py`: enumerate the table
column-major (outer loop over year columns, inner loop over rows), drop the
synthetic February 29 entries of non-leap years, substitute each column's year
into the row key, and drop missing values (`dropna`). -/
def get_data_series (df : YearlyDF) : List (Timestamp × ℚ) :=
  let idx := (df.cols.map (fun col => df.rows.map (fun r => (col, r)))).flatten
  let keep := idx.filter (fun p => !(feb29_invalid p.1 p.2))
  keep.filterMap (fun p => (df.cell p.1 p.2).map (fun v => (mkTs p.1 p.2, v)))

/-- One whole calendar year of daily (midnight) observations without a
February 29 entry, with values given by `f`. -/
def yearBlock (y : Nat) (f : Nat → MDKey → ℚ) : List (Timestamp × ℚ) :=
  keys365.map (fun k => (mkTs y k, f y k))

/-- A series spanning `n` whole consecutive calendar years starting at `y0`,
at a regular daily cadence, with no February 29 entries: the hypothesis class
of the specification's round-trip law. -/
def dailySeries (y0 : Nat) : Nat → (Nat → MDKey → ℚ) → List (Timestamp × ℚ)
  | 0, _ => []
  | n + 1, f => yearBlock y0 f ++ dailySeries (y0 + 1) n f

/-! ## Lemmas towards the round-trip law -/

/-- `n` copies of the 365-day key list, the image of an `n`-year daily series
under `mdkey`. -/
def repKeys : Nat → List MDKey
  | 0 => []
  | n + 1 => keys365 ++ repKeys n

theorem map_mdkey_dailySeries (f : Nat → MDKey → ℚ) :
    ∀ (n y0 : Nat), (dailySeries y0 n f).map (fun x => mdkey x.1) = repKeys n := by
  intro n
  induction n with
  | zero => intro y0; rfl
  | succ m ih =>
    intro y0
    show ((yearBlock y0 f ++ dailySeries (y0 + 1) m f).map (fun x => mdkey x.1)) = _
    rw [List.map_append, ih (y0 + 1)]
    show (keys365.map _).map _ ++ repKeys m = keys365 ++ repKeys m
    rw [List.map_map]
    exact congrArg (· ++ repKeys m) (List.map_id' keys365)

theorem sortedKeys_repKeys : ∀ n : Nat, 1 ≤ n → sortedKeys (repKeys n) = keys365 := by
  intro n
  induction n with
  | zero => intro h; omega
  | succ m ih =>
    intro _
    show sortedKeys (keys365 ++ repKeys m) = keys365
    unfold sortedKeys
    rw [List.foldr_append]
    cases m with
    | zero =>
      show List.foldr insortKey (sortedKeys []) keys365 = keys365
      exact sortedKeys_of_sorted keys365_sorted
    | succ m' =>
      have hm : sortedKeys (repKeys (m' + 1)) = keys365 := ih (by omega)
      show List.foldr insortKey (sortedKeys (repKeys (m' + 1))) keys365 = keys365
      rw [hm]
      exact foldr_insortKey_subset keys365_sorted (fun k hk => hk)

theorem mem_dailySeries_year {f : Nat → MDKey → ℚ} :
    ∀ {n y0 : Nat} {x : Timestamp × ℚ}, x ∈ dailySeries y0 n f →
      y0 ≤ x.1.year ∧ x.1.year < y0 + n := by
  intro n
  induction n with
  | zero => intro y0 x h; cases h
  | succ m ih =>
    intro y0 x h
    rcases List.mem_append.mp h with hb | hd
    · rcases List.mem_map.mp hb with ⟨k, _, hk⟩
      have : x.1.year = y0 := by rw [← hk]; rfl
      omega
    · have := ih hd
      omega

theorem dailySeries_attains_last {f : Nat → MDKey → ℚ} :
    ∀ (n y0 : Nat), 1 ≤ n →
      ∃ x ∈ dailySeries y0 n f, x.1.year = y0 + n - 1 := by
  intro n
  induction n with
  | zero => intro y0 h; omega
  | succ m ih =>
    intro y0 _
    cases m with
    | zero =>
      rcases List.exists_mem_of_ne_nil keys365 keys365_ne_nil with ⟨k, hk⟩
      refine ⟨(mkTs y0 k, f y0 k), ?_, by simp [mkTs]⟩
      exact List.mem_append_left _ (List.mem_map.mpr ⟨k, hk, rfl⟩)
    | succ m' =>
      rcases ih (y0 + 1) (by omega) with ⟨x, hx, hyr⟩
      refine ⟨x, List.mem_append_right _ hx, by omega⟩

theorem foldl_min_year {a : Nat} :
    ∀ {l : List (Timestamp × ℚ)}, (∀ x ∈ l, a ≤ x.1.year) →
      l.foldl (fun acc x => min acc x.1.year) a = a := by
  intro l
  induction l with
  | nil => intro _; rfl
  | cons x xs ih =>
    intro h
    have h1 : min a x.1.year = a :=
      Nat.min_eq_left (h x (List.mem_cons_self x xs))
    show xs.foldl (fun acc x => min acc x.1.year) (min a x.1.year) = a
    rw [h1]
    exact ih (fun y hy => h y (List.mem_cons_of_mem x hy))

theorem foldl_max_year {b : Nat} :
    ∀ {l : List (Timestamp × ℚ)} {a : Nat},
      (∀ x ∈ l, x.1.year ≤ b) → a ≤ b →
      (a = b ∨ ∃ x ∈ l, x.1.year = b) →
      l.foldl (fun acc x => max acc x.1.year) a = b := by
  intro l
  induction l with
  | nil =>
    intro a _ _ hat
    rcases hat with rfl | ⟨x, hx, _⟩
    · rfl
    · cases hx
  | cons x xs ih =>
    intro a hub hab hat
    show xs.foldl (fun acc x => max acc x.1.year) (max a x.1.year) = b
    have hxb : x.1.year ≤ b := hub x (List.mem_cons_self x xs)
    have hub' : ∀ y ∈ xs, y.1.year ≤ b := fun y hy => hub y (List.mem_cons_of_mem x hy)
    rcases hat with rfl | ⟨z, hz, hzb⟩
    · exact ih hub' (by omega) (Or.inl (by omega))
    · rcases List.mem_cons.mp hz with rfl | hzs
      · exact ih hub' (by omega) (Or.inl (by omega))
      · exact ih hub' (by omega) (Or.inr ⟨z, hzs, hzb⟩)

theorem mdkey_mkTs (y : Nat) (k : MDKey) : mdkey (mkTs y k) = k := rfl

theorem year_mkTs (y : Nat) (k : MDKey) : (mkTs y k).year = y := rfl

theorem find?_yearBlock_mem {y : Nat} {f : Nat → MDKey → ℚ} {k : MDKey} :
    ∀ {ks : List MDKey}, k ∈ ks →
      ((ks.map (fun q => (mkTs y q, f y q))).find?
          (fun x => x.1.year == y && mdkey x.1 == k))
        = some (mkTs y k, f y k) := by
  intro ks
  induction ks with
  | nil => intro h; cases h
  | cons q qs ih =>
    intro hm
    by_cases hqk : q = k
    · subst hqk
      rw [List.map_cons, List.find?_cons_of_pos _ (by simp [year_mkTs, mdkey_mkTs])]
    · rw [List.map_cons,
        List.find?_cons_of_neg _ (by simp [year_mkTs, mdkey_mkTs, hqk])]
      exact ih (by
        rcases List.mem_cons.mp hm with rfl | h
        · exact absurd rfl hqk
        · exact h)

theorem find?_yearBlock_ne {y y' : Nat} (hne : y' ≠ y) {f : Nat → MDKey → ℚ}
    {k : MDKey} :
    ∀ {ks : List MDKey},
      ((ks.map (fun q => (mkTs y' q, f y' q))).find?
          (fun x => x.1.year == y && mdkey x.1 == k)) = none := by
  intro ks
  induction ks with
  | nil => rfl
  | cons q qs ih =>
    rw [List.map_cons, List.find?_cons_of_neg _ (by simp [year_mkTs, hne])]
    exact ih

theorem find?_dailySeries {f : Nat → MDKey → ℚ} {k : MDKey} (hk : k ∈ keys365) :
    ∀ {n y0 y : Nat}, y0 ≤ y → y < y0 + n →
      ((dailySeries y0 n f).find? (fun x => x.1.year == y && mdkey x.1 == k))
        = some (mkTs y k, f y k) := by
  intro n
  induction n with
  | zero => intro y0 y h1 h2; omega
  | succ m ih =>
    intro y0 y h1 h2
    show ((yearBlock y0 f ++ dailySeries (y0 + 1) m f).find? _) = _
    rw [List.find?_append]
    by_cases hy : y = y0
    · subst hy
      rw [show (yearBlock y f).find? (fun x => x.1.year == y && mdkey x.1 == k)
            = some (mkTs y k, f y k) from find?_yearBlock_mem hk]
      rfl
    · rw [show (yearBlock y0 f).find? (fun x => x.1.year == y && mdkey x.1 == k)
            = none from find?_yearBlock_ne (fun h => hy h.symm)]
      exact ih (by omega) (by omega)

theorem filterMap_all_some {α β : Type _} {F : α → Option β} {G : α → β} :
    ∀ {l : List α}, (∀ x ∈ l, F x = some (G x)) → l.filterMap F = l.map G := by
  intro l
  induction l with
  | nil => intro _; rfl
  | cons x xs ih =>
    intro h
    rw [List.filterMap_cons_some (h x (List.mem_cons_self x xs)), List.map_cons,
      ih (fun y hy => h y (List.mem_cons_of_mem x hy))]

theorem mem_range'_bounds {y s n : Nat} (h : y ∈ List.range' s n) :
    s ≤ y ∧ y < s + n := by
  rcases List.mem_range'.mp h with ⟨i, hi, rfl⟩
  omega

/-- Unfolding `get_data_series` one column at a time. -/
theorem get_data_series_cons (rows : List MDKey) (cols : List Nat)
    (cell : Nat → MDKey → Option ℚ) (y : Nat) :
    get_data_series ⟨rows, y :: cols, cell⟩ =
      ((rows.map (fun r => (y, r))).filter
          (fun p => !(feb29_invalid p.1 p.2))).filterMap
        (fun p => (cell p.1 p.2).map (fun v => (mkTs p.1 p.2, v)))
      ++ get_data_series ⟨rows, cols, cell⟩ := by
  simp only [get_data_series, List.map_cons, List.flatten_cons, List.filter_append,
    List.filterMap_append]

/-- On a table with no synthetic February 29 rows and no missing cells,
`get_data_series` is the column-major enumeration of all cells. -/
theorem get_data_series_of_full (rows : List MDKey)
    (cell : Nat → MDKey → Option ℚ) (g : Nat → MDKey → ℚ) :
    ∀ cols : List Nat,
      (∀ y ∈ cols, ∀ r ∈ rows, feb29_invalid y r = false) →
      (∀ y ∈ cols, ∀ r ∈ rows, cell y r = some (g y r)) →
      get_data_series ⟨rows, cols, cell⟩ =
        (cols.map (fun y => rows.map (fun r => (mkTs y r, g y r)))).flatten := by
  intro cols
  induction cols with
  | nil => intro _ _; rfl
  | cons y ys ih =>
    intro hleg hcell
    have hleg1 : ∀ r ∈ rows, feb29_invalid y r = false :=
      hleg y (List.mem_cons_self y ys)
    have hcell1 : ∀ r ∈ rows, cell y r = some (g y r) :=
      hcell y (List.mem_cons_self y ys)
    have hlegs : ∀ z ∈ ys, ∀ r ∈ rows, feb29_invalid z r = false :=
      fun z hz => hleg z (List.mem_cons_of_mem y hz)
    have hcells : ∀ z ∈ ys, ∀ r ∈ rows, cell z r = some (g z r) :=
      fun z hz => hcell z (List.mem_cons_of_mem y hz)
    rw [get_data_series_cons, ih hlegs hcells, List.map_cons, List.flatten_cons]
    refine congrArg (· ++ _) ?_
    rw [List.filter_eq_self.mpr (by
      intro p hp
      rcases List.mem_map.mp hp with ⟨r, hr, rfl⟩
      simp [hleg1 r hr])]
    rw [List.filterMap_map]
    exact filterMap_all_some (fun r hr => by
      show (cell y r).map _ = _
      rw [hcell1 r hr]
      rfl)

theorem flatten_yearBlocks (f : Nat → MDKey → ℚ) :
    ∀ (n y0 : Nat),
      ((List.range' y0 n).map
        (fun y => keys365.map (fun r => (mkTs y r, f y r)))).flatten
        = dailySeries y0 n f := by
  intro n
  induction n with
  | zero => intro y0; rfl
  | succ m ih =>
    intro y0
    rw [List.range'_succ, List.map_cons, List.flatten_cons, ih (y0 + 1)]
    rfl

/-! ## Claims about the regrouper/flattener pair -/

/-- C1: for every series spanning whole calendar years at a regular daily
cadence with no February 29 entries, `get_data_series (group_yearly_df S)`
reproduces `S` exactly — the multiset of values, in column-major flattening
order (years ascending, day-of-year rows within a year), with no value lost.
For such a series the column-major order coincides with the chronological
order, so the round trip is the identity. -/
theorem c1_roundtrip (y0 n : Nat) (f : Nat → MDKey → ℚ) (hn : 1 ≤ n) :
    Except.map get_data_series (group_yearly_df (dailySeries y0 n f))
      = Except.ok (dailySeries y0 n f) := by
  obtain ⟨m, rfl⟩ : ∃ m, n = m + 1 := ⟨n - 1, by omega⟩
  obtain ⟨k1, ks, hK⟩ : ∃ k1 ks, keys365 = k1 :: ks := by
    cases hK : keys365 with
    | nil => exact absurd hK keys365_ne_nil
    | cons a l => exact ⟨a, l, rfl⟩
  have hS : dailySeries y0 (m + 1) f
      = (mkTs y0 k1, f y0 k1) ::
          (ks.map (fun k => (mkTs y0 k, f y0 k)) ++ dailySeries (y0 + 1) m f) := by
    show yearBlock y0 f ++ dailySeries (y0 + 1) m f = _
    rw [yearBlock, hK, List.map_cons]
    rfl
  have hmemS : ∀ x ∈ dailySeries y0 (m + 1) f, y0 ≤ x.1.year ∧ x.1.year < y0 + (m + 1) :=
    fun x hx => mem_dailySeries_year hx
  rw [hS]
  simp only [group_yearly_df, Except.map]
  have hmin : (ks.map (fun k => (mkTs y0 k, f y0 k)) ++ dailySeries (y0 + 1) m f).foldl
      (fun a x => min a x.1.year) (mkTs y0 k1, f y0 k1).1.year = y0 := by
    show _ = y0
    exact foldl_min_year (fun x hx =>
      (hmemS x (by rw [hS]; exact List.mem_cons_of_mem _ hx)).1)
  have hmax : (ks.map (fun k => (mkTs y0 k, f y0 k)) ++ dailySeries (y0 + 1) m f).foldl
      (fun a x => max a x.1.year) (mkTs y0 k1, f y0 k1).1.year = y0 + m := by
    refine foldl_max_year (fun x hx =>
      by have := (hmemS x (by rw [hS]; exact List.mem_cons_of_mem _ hx)).2; omega)
      (by show y0 ≤ y0 + m; omega) ?_
    cases m with
    | zero => exact Or.inl rfl
    | succ m' =>
      rcases dailySeries_attains_last (f := f) (m' + 2) y0 (by omega) with ⟨x, hx, hyr⟩
      rw [hS] at hx
      rcases List.mem_cons.mp hx with rfl | hx2
      · exfalso
        have h2 : ((mkTs y0 k1, f y0 k1) : Timestamp × ℚ).1.year = y0 := rfl
        omega
      · exact Or.inr ⟨x, hx2, by omega⟩
  rw [hmin, hmax]
  have hrows : sortedKeys
      (((mkTs y0 k1, f y0 k1) ::
          (ks.map (fun k => (mkTs y0 k, f y0 k)) ++ dailySeries (y0 + 1) m f)).map
        (fun x => mdkey x.1)) = keys365 := by
    rw [← hS, map_mdkey_dailySeries, sortedKeys_repKeys (m + 1) (by omega)]
  rw [hrows, show y0 + m + 1 - y0 = m + 1 from by omega]
  refine congrArg Except.ok ?_
  rw [get_data_series_of_full keys365 _ f (List.range' y0 (m + 1))
    (fun y _ r hr => by simp [feb29_invalid, keys365_no_feb29 r hr])
    (fun y hy r hr => by
      show ((((mkTs y0 k1, f y0 k1) ::
          (ks.map (fun k => (mkTs y0 k, f y0 k)) ++ dailySeries (y0 + 1) m f))).find?
            (fun x => x.1.year == y && mdkey x.1 == r)).map (fun x => x.2)
          = some (f y r)
      rw [← hS]
      have hb := mem_range'_bounds hy
      rw [find?_dailySeries hr hb.1 hb.2]
      rfl)]
  rw [flatten_yearBlocks, hS]

/-- Witness for C1 at a concrete one-year span. -/
theorem c1_roundtrip_witness :
    1 ≤ 1 ∧
      Except.map get_data_series (group_yearly_df (dailySeries 2021 1 (fun _ _ => 0)))
        = Except.ok (dailySeries 2021 1 (fun _ _ => 0)) :=
  ⟨by omega, c1_roundtrip 2021 1 (fun _ _ => 0) (by omega)⟩

/-- C2: every entry of the flattened series whose timestamp is a
February 29 comes from a leap-year column; a February 29 row paired with a
non-leap year contributes no entry at all. -/
theorem c2_feb29_discarded (df : YearlyDF) (t : Timestamp) (v : ℚ)
    (hmem : (t, v) ∈ get_data_series df) (hm : t.month = 2) (hd : t.day = 29) :
    isleap t.year = true := by
  simp only [get_data_series] at hmem
  rcases List.mem_filterMap.mp hmem with ⟨p, hp, hsome⟩
  rcases List.mem_filter.mp hp with ⟨_, hkeep⟩
  rcases hcell : df.cell p.1 p.2 with _ | w
  · rw [hcell] at hsome
    exact absurd hsome (by simp)
  · rw [hcell] at hsome
    have ht : mkTs p.1 p.2 = t := by
      have := Option.some.inj hsome
      exact congrArg Prod.fst this
    have hmonth : p.2.month = 2 := by rw [← hm, ← ht]; rfl
    have hday : p.2.day = 29 := by rw [← hd, ← ht]; rfl
    have hyear : p.1 = t.year := by rw [← ht]; rfl
    have hfalse : feb29_invalid p.1 p.2 = false := by
      cases hfb : feb29_invalid p.1 p.2
      · rfl
      · rw [hfb] at hkeep
        exact absurd hkeep (by simp)
    rw [feb29_invalid, hmonth, hday] at hfalse
    simp at hfalse
    rw [← hyear]
    exact hfalse

/-- Witness for C2: a concrete table with a February 29 row and a leap-year
column, whose flattened series contains the corresponding entry. -/
theorem c2_feb29_discarded_witness :
    ((⟨2024, 2, 29, 0⟩, (1 : ℚ)) ∈
        get_data_series ⟨[⟨2, 29, 0⟩], [2024], fun _ _ => some 1⟩) ∧
      isleap 2024 = true :=
  ⟨by decide, c2_feb29_discarded ⟨[⟨2, 29, 0⟩], [2024], fun _ _ => some 1⟩
    ⟨2024, 2, 29, 0⟩ 1 (by decide) rfl rfl⟩

/-- C10: on an empty series the chronological grouping produces no per-year
frames at all, and `concat({}, axis=1)` raises
`ValueError("No objects to concatenate")` instead of returning an empty
table. -/
theorem c10_group_yearly_df_empty :
    group_yearly_df [] = Except.error "No objects to concatenate" := rfl

/-! ## The series/index validator

`validate_series` receives an arbitrary Python object.  It first calls
`series.copy()` and only then checks `isinstance`; objects without a `copy`
method (a plain `int`, a `tuple`) therefore raise `AttributeError` before any
type check, while Python lists and numpy scalars do have `copy` and reach the
`isinstance` checks, which raise `TypeError` for them.  A one-column DataFrame
is converted with `DataFrame.squeeze()`, which yields a Series — except for a
one-column one-row frame, which squeezes all the way down to a numpy scalar. -/

/-- Index labels of a pandas object: integers, strings, or datetimes
(a datetime value is its nanosecond offset from the epoch, which is how
pandas stores it). -/
inductive PyLabel where
  | int (n : Int)
  | str (s : String)
  | dt (t : Int)
deriving DecidableEq

/-- A pandas Series: optional name, index labels, and numeric values. -/
structure PSeries where
  name : Option String
  index : List PyLabel
  values : List ℚ
deriving DecidableEq

/-- A pandas DataFrame: shared index and named columns. -/
structure PFrame where
  index : List PyLabel
  cols : List (String × List ℚ)
deriving DecidableEq

/-- The Python values `validate_series` may receive. -/
inductive PyInput where
  | series (s : PSeries)
  | frame (df : PFrame)
  | scalar (q : ℚ)
  | pylist (xs : List ℚ)
  | pyint (n : Int)
  | pytuple (xs : List ℚ)
deriving DecidableEq

/-- The exceptions the validator code and its callees can raise. -/
inductive PyErr where
  | attributeError
  | typeError
  | parseError
deriving DecidableEq

/-- Whether the Python object has a `copy` method: pandas objects, lists and
numpy scalars do; `int` and `tuple` do not. -/
def hasCopy : PyInput → Bool
  | .series _ => true
  | .frame _ => true
  | .scalar _ => true
  | .pylist _ => true
  | .pyint _ => false
  | .pytuple _ => false

/-- `DataFrame.squeeze()` on the one-column frames `validate_series`
constructs: length-1 axes are squeezed away, so a one-column frame becomes a
Series named after the column, and a one-column one-row frame becomes a bare
scalar. -/
def dfSqueeze (df : PFrame) : PyInput :=
  match df.cols with
  | [(_, [v])] => .scalar v
  | [(n, vs)] => .series ⟨some n, df.index, vs⟩
  | _ => .frame df

/-- The warning text emitted on automatic DataFrame-to-Series conversion
(the source concatenates two string literals without a separating space). -/
def squeeze_warning : String :=
  "Please convert series of type pandas.DataFrame to apandas.Series using DataFrame.squeeze(). Now done automatically."

/-- `validate_series` from `src/spei/utils.py`.  Returns the resulting value
or the raised exception, together with the emitted log messages. -/
def validate_series (x : PyInput) : Except PyErr PyInput × List String :=
  if hasCopy x = false then (Except.error PyErr.attributeError, [])
  else
    match x with
    | .series s => (Except.ok (.series s), [])
    | .frame df =>
      if df.cols.length = 1 then (Except.ok (dfSqueeze df), [squeeze_warning])
      else (Except.error PyErr.typeError, [])
    | _ => (Except.error PyErr.typeError, [])

/-- Whether the object is a pandas Series or DataFrame. -/
def isSeriesOrFrame : PyInput → Bool
  | .series _ => true
  | .frame _ => true
  | _ => false

/-- C6 as stated is false: `validate_series` calls `.copy()` before any type
check, so a non-series input without a `copy` method — here the tuple
`(1, 2, 3)` — raises `AttributeError`, not the documented `TypeError`. -/
theorem c6_counterexample :
    (validate_series (.pytuple [1, 2, 3])).1 = Except.error PyErr.attributeError ∧
      PyErr.attributeError ≠ PyErr.typeError := by
  exact ⟨rfl, by decide⟩

/-- C6 (amended): every multi-column table raises `TypeError`; a
non-series/non-table input raises `TypeError` when it has a `copy` method
(e.g. a plain list) and `AttributeError` when it does not (e.g. an `int` or a
`tuple`). -/
theorem c6_validate_series_rejects :
    (∀ df : PFrame, 2 ≤ df.cols.length →
        (validate_series (.frame df)).1 = Except.error PyErr.typeError) ∧
    (∀ x : PyInput, isSeriesOrFrame x = false → hasCopy x = true →
        (validate_series x).1 = Except.error PyErr.typeError) ∧
    (∀ x : PyInput, hasCopy x = false →
        (validate_series x).1 = Except.error PyErr.attributeError) := by
  refine ⟨?_, ?_, ?_⟩
  · intro df h
    have hne : ¬df.cols.length = 1 := by omega
    simp [validate_series, hasCopy, hne]
  · intro x hsf hc
    cases x <;> simp_all [validate_series, hasCopy, isSeriesOrFrame]
  · intro x hc
    simp [validate_series, hc]

/-- Witness for C6 (amended) at a two-column frame, the list `[1,2,3]`, and
the integer `3`. -/
theorem c6_validate_series_rejects_witness :
    (validate_series (.frame ⟨[], [("s1", [1]), ("s2", [1])]⟩)).1
        = Except.error PyErr.typeError ∧
      (validate_series (.pylist [1, 2, 3])).1 = Except.error PyErr.typeError ∧
      (validate_series (.pyint 3)).1 = Except.error PyErr.attributeError :=
  ⟨c6_validate_series_rejects.1 ⟨[], [("s1", [1]), ("s2", [1])]⟩ (by decide),
    c6_validate_series_rejects.2.1 (.pylist [1, 2, 3]) (by decide) (by decide),
    c6_validate_series_rejects.2.2 (.pyint 3) (by decide)⟩

/-- C7 as stated is false at a one-column one-row table: `squeeze()` yields a
scalar, so `validate_series(T)` returns that scalar while
`validate_series(T.squeeze())` raises `TypeError`. -/
theorem c7_counterexample :
    (validate_series (.frame ⟨[.int 0], [("s", [5])]⟩)).1
        = Except.ok (.scalar 5) ∧
      (validate_series (dfSqueeze ⟨[.int 0], [("s", [5])]⟩)).1
        = Except.error PyErr.typeError ∧
      (Except.ok (.scalar 5) : Except PyErr PyInput) ≠ Except.error PyErr.typeError := by
  refine ⟨rfl, rfl, ?_⟩
  intro h
  exact Except.noConfusion h

/-- C7 (amended): for every one-column table with a number of rows other than
one, `validate_series(T)` equals `validate_series(T.squeeze())`, and the call
on the table emits the automatic-conversion warning. -/
theorem c7_squeeze_agreement (df : PFrame) (n : String) (vs : List ℚ)
    (hcols : df.cols = [(n, vs)]) (hrows : vs.length ≠ 1) :
    (validate_series (.frame df)).1 = (validate_series (dfSqueeze df)).1 ∧
      squeeze_warning ∈ (validate_series (.frame df)).2 := by
  have hsq : dfSqueeze df = .series ⟨some n, df.index, vs⟩ := by
    cases vs with
    | nil => simp [dfSqueeze, hcols]
    | cons v vt =>
      cases vt with
      | nil => exact (hrows rfl).elim
      | cons w wt => simp [dfSqueeze, hcols]
  have hlen : df.cols.length = 1 := by rw [hcols]; rfl
  constructor
  · rw [show (validate_series (.frame df)).1 = Except.ok (dfSqueeze df) from by
      simp [validate_series, hasCopy, hlen]]
    rw [hsq]
    rfl
  · simp [validate_series, hasCopy, hlen]

/-- Witness for C7 (amended) at a three-row one-column frame. -/
theorem c7_squeeze_agreement_witness :
    (validate_series (.frame ⟨[.int 0, .int 1, .int 2], [("s", [1, 2, 3])]⟩)).1
        = (validate_series (dfSqueeze ⟨[.int 0, .int 1, .int 2], [("s", [1, 2, 3])]⟩)).1 ∧
      squeeze_warning ∈
        (validate_series (.frame ⟨[.int 0, .int 1, .int 2], [("s", [1, 2, 3])]⟩)).2 :=
  c7_squeeze_agreement ⟨[.int 0, .int 1, .int 2], [("s", [1, 2, 3])]⟩ "s" [1, 2, 3]
    rfl (by decide)

/-- C9: `validate_series` invokes `.copy()` before any type check, so every
input without a `copy` method raises `AttributeError` rather than the
documented input-type error, with no warning emitted. -/
theorem c9_copy_before_type_check (x : PyInput) (h : hasCopy x = false) :
    (validate_series x).1 = Except.error PyErr.attributeError ∧
      (validate_series x).1 ≠ Except.error PyErr.typeError := by
  constructor
  · simp [validate_series, h]
  · simp [validate_series, h]

/-- Witness for C9 at the integer `3` and the tuple `(1, 2, 3)`. -/
theorem c9_copy_before_type_check_witness :
    ((validate_series (.pyint 3)).1 = Except.error PyErr.attributeError ∧
        (validate_series (.pyint 3)).1 ≠ Except.error PyErr.typeError) ∧
      ((validate_series (.pytuple [1, 2, 3])).1 = Except.error PyErr.attributeError ∧
        (validate_series (.pytuple [1, 2, 3])).1 ≠ Except.error PyErr.typeError) :=
  ⟨c9_copy_before_type_check (.pyint 3) (by decide),
    c9_copy_before_type_check (.pytuple [1, 2, 3]) (by decide)⟩

/-! ## The index validator -/

/-- A pandas Index: its labels and whether its dtype is already
`DatetimeIndex`. -/
structure PIndex where
  labels : List PyLabel
  isDatetime : Bool
deriving DecidableEq

/-- The external best-effort date parser (`dateutil` behind
`pd.to_datetime`): maps a string label to a datetime, or fails.  Integer
labels are not parsed as text — pandas interprets them directly as
nanosecond offsets from the epoch, which never fails. -/
structure PandasEnv where
  parseDate : String → Option Int

/-- `pd.to_datetime` on a single label. -/
def label_to_datetime (env : PandasEnv) : PyLabel → Option Int
  | .int n => some n
  | .str s => env.parseDate s
  | .dt t => some t

/-- `pd.to_datetime` over a whole index: all labels must parse, otherwise the
parser raises. -/
def to_datetime_all (env : PandasEnv) : List PyLabel → Option (List Int)
  | [] => some []
  | l :: ls =>
    match label_to_datetime env l, to_datetime_all env ls with
    | some t, some ts => some (t :: ts)
    | _, _ => none

/-- The informational text logged before the automatic index conversion. -/
def index_info_msg : String :=
  "Expected the index to be a DatetimeIndex. Automatically converted using pd.to_datetime(Index)"

/-- `validate_index` from `src/spei/utils.py`: a copy of the index is
returned unchanged when it is already datetime-typed; otherwise an
informational message is logged and every label is coerced with
`pd.to_datetime`, which raises on unparsable labels. -/
def validate_index (env : PandasEnv) (idx : PIndex) :
    Except PyErr PIndex × List String :=
  if idx.isDatetime then (Except.ok idx, [])
  else
    match to_datetime_all env idx.labels with
    | some ts => (Except.ok ⟨ts.map PyLabel.dt, true⟩, [index_info_msg])
    | none => (Except.error PyErr.parseError, [index_info_msg])

theorem to_datetime_all_length (env : PandasEnv) :
    ∀ ls : List PyLabel, (∀ l ∈ ls, label_to_datetime env l ≠ none) →
      ∃ ts, to_datetime_all env ls = some ts ∧ ts.length = ls.length := by
  intro ls
  induction ls with
  | nil => intro _; exact ⟨[], rfl, rfl⟩
  | cons l ls ih =>
    intro h
    rcases ih (fun y hy => h y (List.mem_cons_of_mem l hy)) with ⟨ts, hts, hlen⟩
    rcases hl : label_to_datetime env l with _ | t
    · exact absurd hl (h l (List.mem_cons_self l ls))
    · refine ⟨t :: ts, ?_, by simp [hlen]⟩
      simp [to_datetime_all, hl, hts]

/-- C8 as stated is false: a non-datetime index whose labels the date parser
rejects (here the single string `"not-a-date"`) makes `validate_index` raise
instead of returning a coerced index. -/
theorem c8_counterexample :
    (validate_index ⟨fun _ => none⟩ ⟨[.str "not-a-date"], false⟩).1
        = Except.error PyErr.parseError ∧
      ∀ r : PIndex, Except.error PyErr.parseError ≠ Except.ok r := by
  refine ⟨rfl, ?_⟩
  intro r h
  exact Except.noConfusion h

/-- C8 (amended): for every index that is not datetime-typed and all of whose
labels the date parser accepts — in particular any integer index such as
`[1,2,3]` — `validate_index` returns a datetime-typed index of the same
length and logs the informational conversion message. -/
theorem c8_validate_index_coerces (env : PandasEnv) (idx : PIndex)
    (hdt : idx.isDatetime = false)
    (hparse : ∀ l ∈ idx.labels, label_to_datetime env l ≠ none) :
    ∃ r : PIndex, (validate_index env idx).1 = Except.ok r ∧
      r.isDatetime = true ∧ r.labels.length = idx.labels.length ∧
      (validate_index env idx).2 = [index_info_msg] := by
  rcases to_datetime_all_length env idx.labels hparse with ⟨ts, hts, hlen⟩
  refine ⟨⟨ts.map PyLabel.dt, true⟩, ?_, rfl, by simp [hlen], ?_⟩
  · simp [validate_index, hdt, hts]
  · simp [validate_index, hdt, hts]

/-- Witness for C8 (amended) at the integer index `[1,2,3]`. -/
theorem c8_validate_index_coerces_witness :
    ∃ r : PIndex,
      (validate_index ⟨fun _ => none⟩ ⟨[.int 1, .int 2, .int 3], false⟩).1
          = Except.ok r ∧
        r.isDatetime = true ∧
        r.labels.length = ([PyLabel.int 1, .int 2, .int 3]).length ∧
        (validate_index ⟨fun _ => none⟩ ⟨[.int 1, .int 2, .int 3], false⟩).2
          = [index_info_msg] :=
  c8_validate_index_coerces ⟨fun _ => none⟩ ⟨[.int 1, .int 2, .int 3], false⟩ rfl
    (by intro l hl; fin_cases hl <;> simp [label_to_datetime])

/-! ## Distribution fit testing

scipy's continuous distributions and the Kolmogorov-Smirnov test are external
black boxes (spec section 6): a distribution exposes `name` and
`fit(sample, scale=...)`, and `kstest(sample, name, params, N)` returns a
(statistic, p-value) pair.  They are modelled by an environment of opaque
functions; the default candidate list is the eight scipy distributions named
in the source, whose scipy `name` attributes are the strings below. -/

/-- A scipy continuous distribution: its `name` attribute and its `fit`
method (sample and scale hint to fitted parameter tuple). -/
structure ContinuousDist where
  name : String
  fit : List ℚ → ℚ → List ℚ

/-- The external numpy/scipy services used by `dist_test`: `numpy.std`,
`scipy.stats.kstest`, and the fit routines of the named scipy
distributions. -/
structure StatsEnv where
  std : List ℚ → ℚ
  kstest : List ℚ → String → List ℚ → Nat → ℚ × ℚ
  fitFor : String → List ℚ → ℚ → List ℚ

/-- `dist_test` from `src/spei/utils.py`: fit the distribution with the
sample's standard deviation as scale hint, run the two-sided KS test, and
reject the null hypothesis when the p-value is strictly below `alpha`. -/
def dist_test (env : StatsEnv) (series : List ℚ) (dist : ContinuousDist)
    (N : Nat) (alpha : ℚ) : String × ℚ × Bool × List ℚ :=
  let fitted := dist.fit series (env.std series)
  let dist_name := dist.name
  let ks := (env.kstest series dist_name fitted N).2
  let rej_h0 := decide (ks < alpha)
  (dist_name, ks, rej_h0, fitted)

/-- The default candidate list of `dists_test`:
`[norm, gamma, genextreme, pearson3, fisk, lognorm, logistic, genlogistic]`. -/
def default_distributions (env : StatsEnv) : List ContinuousDist :=
  [⟨"norm", env.fitFor "norm"⟩,
   ⟨"gamma", env.fitFor "gamma"⟩,
   ⟨"genextreme", env.fitFor "genextreme"⟩,
   ⟨"pearson3", env.fitFor "pearson3"⟩,
   ⟨"fisk", env.fitFor "fisk"⟩,
   ⟨"lognorm", env.fitFor "lognorm"⟩,
   ⟨"logistic", env.fitFor "logistic"⟩,
   ⟨"genlogistic", env.fitFor "genlogistic"⟩]

/-- A cell of the result DataFrame.  `pandas.DataFrame(list_of_tuples)`
treats each 4-tuple returned by `dist_test` as one row of four cells; the
nested fitted-parameter tuple stays a single object cell (`tup`). -/
inductive Cell where
  | str (s : String)
  | rat (q : ℚ)
  | bool (b : Bool)
  | tup (qs : List ℚ)
deriving DecidableEq

/-- The comparison table built by `dists_test`, after
`set_index("Distribution")` and the `df["Dist"] = distributions`
assignment: an index of distribution names, the data column names, the data
rows, and the appended column of distribution objects. -/
structure DistsTable where
  index : List String
  columns : List String
  rows : List (List Cell)
  distCol : List ContinuousDist

/-- `dists_test` from `src/spei/utils.py`.  `DataFrame([...])` has as many
columns as the longest row (always 4 here, since each row is a 4-tuple);
`cols` gets one extra `Param {i+1}` name per column beyond the first three;
the positional rename then applies `cols` to the existing columns, and
`set_index` raises `KeyError` when there is no `Distribution` column (the
empty-candidate case). -/
def dists_test (env : StatsEnv) (series : List ℚ)
    (distributions : Option (List ContinuousDist)) (N : Nat) (alpha : ℚ) :
    Except String DistsTable :=
  let dists := distributions.getD (default_distributions env)
  let results := dists.map (fun D => dist_test env series D N alpha)
  let rawRows := results.map (fun t =>
    [Cell.str t.1, Cell.rat t.2.1, Cell.bool t.2.2.1, Cell.tup t.2.2.2])
  let ncols := rawRows.foldr (fun r m => max r.length m) 0
  let cols := ["Distribution", "KS p-value", "Reject H0"] ++
    (List.range (ncols - 3)).map (fun i => "Param " ++ toString (i + 1))
  if "Distribution" ∈ cols.take ncols then
    Except.ok
      { index := rawRows.map (fun r =>
          match r.headD (Cell.str "") with
          | Cell.str s => s
          | _ => "")
        columns := (cols.take ncols).drop 1 ++ ["Dist"]
        rows := rawRows.map (fun r => r.drop 1)
        distCol := dists }
  else Except.error "KeyError: Distribution"

/-- The fitted-parameter columns of the result table: the data columns whose
name begins with `Param`. -/
def strStartsWith (s p : String) : Bool := p.data.isPrefixOf s.data

def paramColumns (t : DistsTable) : List String :=
  t.columns.filter (fun c => strStartsWith c "Param")

/-- C3: `dist_test` returns the 4-tuple (distribution name, KS p-value,
reject flag, fitted parameters), with the reject flag true exactly when the
p-value is strictly below `alpha`; the p-value lies in [0,1] whenever the
external KS test respects its contract, and for the `norm` distribution the
first component is the string `"norm"`. -/
theorem c3_dist_test_shape (env : StatsEnv) (sample : List ℚ)
    (dist : ContinuousDist) (N : Nat) (alpha : ℚ)
    (hks : ∀ (s : List ℚ) (nm : String) (ps : List ℚ) (n : Nat),
      0 ≤ (env.kstest s nm ps n).2 ∧ (env.kstest s nm ps n).2 ≤ 1) :
    (dist_test env sample dist N alpha).1 = dist.name ∧
      0 ≤ (dist_test env sample dist N alpha).2.1 ∧
      (dist_test env sample dist N alpha).2.1 ≤ 1 ∧
      ((dist_test env sample dist N alpha).2.2.1 = true ↔
        (dist_test env sample dist N alpha).2.1 < alpha) ∧
      (dist_test env sample dist N alpha).2.2.2
        = dist.fit sample (env.std sample) ∧
      (dist.name = "norm" → (dist_test env sample dist N alpha).1 = "norm") := by
  refine ⟨rfl, (hks sample dist.name _ N).1, (hks sample dist.name _ N).2,
    ?_, rfl, fun h => h⟩
  exact decide_eq_true_iff

/-- Witness for C3 with a concrete KS environment returning p-value 1/2. -/
theorem c3_dist_test_shape_witness :
    (dist_test ⟨fun _ => 0, fun _ _ _ _ => (0, 1/2), fun _ _ _ => []⟩ [1, 2, 3]
        ⟨"norm", fun _ _ => [0, 1]⟩ 100 (1/20)).1 = "norm" ∧
      0 ≤ (dist_test ⟨fun _ => 0, fun _ _ _ _ => (0, 1/2), fun _ _ _ => []⟩ [1, 2, 3]
        ⟨"norm", fun _ _ => [0, 1]⟩ 100 (1/20)).2.1 ∧
      (dist_test ⟨fun _ => 0, fun _ _ _ _ => (0, 1/2), fun _ _ _ => []⟩ [1, 2, 3]
        ⟨"norm", fun _ _ => [0, 1]⟩ 100 (1/20)).2.1 ≤ 1 ∧
      ((dist_test ⟨fun _ => 0, fun _ _ _ _ => (0, 1/2), fun _ _ _ => []⟩ [1, 2, 3]
        ⟨"norm", fun _ _ => [0, 1]⟩ 100 (1/20)).2.2.1 = true ↔
        (dist_test ⟨fun _ => 0, fun _ _ _ _ => (0, 1/2), fun _ _ _ => []⟩ [1, 2, 3]
          ⟨"norm", fun _ _ => [0, 1]⟩ 100 (1/20)).2.1 < 1/20) ∧
      (dist_test ⟨fun _ => 0, fun _ _ _ _ => (0, 1/2), fun _ _ _ => []⟩ [1, 2, 3]
        ⟨"norm", fun _ _ => [0, 1]⟩ 100 (1/20)).2.2.2 = [0, 1] ∧
      ("norm" = "norm" →
        (dist_test ⟨fun _ => 0, fun _ _ _ _ => (0, 1/2), fun _ _ _ => []⟩ [1, 2, 3]
          ⟨"norm", fun _ _ => [0, 1]⟩ 100 (1/20)).1 = "norm") :=
  c3_dist_test_shape ⟨fun _ => 0, fun _ _ _ _ => (0, 1/2), fun _ _ _ => []⟩
    [1, 2, 3] ⟨"norm", fun _ _ => [0, 1]⟩ 100 (1/20)
    (by intro s nm ps n; constructor <;> norm_num)

/-- C4: with no explicit distribution list, `dists_test` returns a table of
exactly 8 rows, indexed by the 8 default distribution names in order, with
the `Dist` column holding the original distribution objects in that order. -/
theorem c4_dists_test_default (env : StatsEnv) (sample : List ℚ) (N : Nat)
    (alpha : ℚ) :
    ∃ t : DistsTable, dists_test env sample none N alpha = Except.ok t ∧
      t.index = ["norm", "gamma", "genextreme", "pearson3", "fisk", "lognorm",
        "logistic", "genlogistic"] ∧
      t.rows.length = 8 ∧
      t.distCol = default_distributions env :=
  ⟨_, rfl, rfl, rfl, rfl⟩

theorem foldr_maxlen_four :
    ∀ l : List (List Cell), l ≠ [] → (∀ r ∈ l, r.length = 4) →
      l.foldr (fun r m => max r.length m) 0 = 4 := by
  intro l
  induction l with
  | nil => intro h _; exact absurd rfl h
  | cons r rs ih =>
    intro _ hall
    rw [List.foldr_cons, hall r (List.mem_cons_self r rs)]
    cases rs with
    | nil => rfl
    | cons a as =>
      rw [ih (by simp) (fun x hx => hall x (List.mem_cons_of_mem r hx))]
      rfl

/-- A concrete environment in which the gamma fit returns three parameters
and every other fit returns two, as scipy's `gamma` (3) and `norm` (2) do. -/
def c5_env : StatsEnv :=
  { std := fun _ => 0
    kstest := fun _ _ _ _ => (0, 1/2)
    fitFor := fun nm => if nm = "gamma" then fun _ _ => [1, 2, 3] else fun _ _ => [0, 1] }

/-- C5 as stated is false: even when the largest fitted parameter count among
the default candidates is 3, the table has exactly one fitted-parameter
column (`Param 1`), because each row's parameter tuple occupies a single
DataFrame cell. -/
theorem c5_counterexample :
    Except.map (fun t => paramColumns t) (dists_test c5_env [1] none 100 (1/20))
        = Except.ok ["Param 1"] ∧
      ((default_distributions c5_env).map
          (fun D => (D.fit [1] (c5_env.std [1])).length)).foldr max 0 = 3 ∧
      ([("Param " ++ toString 1)] : List String).length ≠ 3 := by
  refine ⟨rfl, rfl, by decide⟩

/-- C5 (amended): for every nonempty candidate list the table has, besides
the KS p-value and reject columns, exactly one fitted-parameter column named
`Param 1`, and that single cell holds the candidate's entire fitted parameter
tuple; no trailing per-parameter columns exist. -/
theorem c5_single_param_column (env : StatsEnv) (sample : List ℚ)
    (dists : List ContinuousDist) (N : Nat) (alpha : ℚ) (hd : dists ≠ []) :
    ∃ t : DistsTable, dists_test env sample (some dists) N alpha = Except.ok t ∧
      paramColumns t = ["Param 1"] ∧
      t.columns = ["KS p-value", "Reject H0", "Param 1", "Dist"] ∧
      t.rows = dists.map (fun D =>
        [Cell.rat (dist_test env sample D N alpha).2.1,
         Cell.bool (dist_test env sample D N alpha).2.2.1,
         Cell.tup (dist_test env sample D N alpha).2.2.2]) ∧
      ∀ D : ContinuousDist,
        (dist_test env sample D N alpha).2.2.2 = D.fit sample (env.std sample) := by
  have hfold : ((dists.map (fun D => dist_test env sample D N alpha)).map
      (fun t => [Cell.str t.1, Cell.rat t.2.1, Cell.bool t.2.2.1,
        Cell.tup t.2.2.2])).foldr (fun r m => max r.length m) 0 = 4 := by
    refine foldr_maxlen_four _ ?_ ?_
    · simp [hd]
    · intro r hr
      rcases List.mem_map.mp hr with ⟨t, _, rfl⟩
      rfl
  simp only [dists_test, Option.getD, hfold]
  rw [if_pos (by decide)]
  refine ⟨_, rfl, rfl, rfl, ?_, fun D => rfl⟩
  show ((dists.map fun D => dist_test env sample D N alpha).map _).map _ = _
  rw [List.map_map, List.map_map]
  rfl

/-- Witness for C5 (amended) at a one-element candidate list. -/
theorem c5_single_param_column_witness :
    ∃ t : DistsTable,
      dists_test c5_env [1] (some [⟨"norm", fun _ _ => [3, 4]⟩]) 100 (1/20)
          = Except.ok t ∧
        paramColumns t = ["Param 1"] ∧
        t.columns = ["KS p-value", "Reject H0", "Param 1", "Dist"] := by
  rcases c5_single_param_column c5_env [1] [⟨"norm", fun _ _ => [3, 4]⟩] 100 (1/20)
    (List.cons_ne_nil _ _) with ⟨t, h1, h2, h3, _⟩
  exact ⟨t, h1, h2, h3⟩

end SPEI
